import Mathlib

/-!
Shallow embedding of `src/database/interface.rs` of GameSaveSyncServer.

The SQLite store is modelled as a `DbState` record of table contents (one
list per table, in insertion order, mirroring rowid order).  Each repository
operation becomes a pure Lean function over `DbState`:

* multi-row write operations (`add_game_metadata`, `add_reference_to_save`)
  run a transaction body returning `Except DbError DbState`; the
  `immediate_transaction` wrapper commits the new state on `Ok` and restores
  the original state on `Err` (rollback);
* engine-level failures of individual INSERT statements and the id-lookup
  race are injected through an explicit fault record, since in the Rust code
  they arise from the external storage engine;
* read operations are pure queries on the state.  `get_game_metadata_by_name`
  and `get_games_metadata` call `Option::unwrap` on a nullable id column, so
  their results live in `RunResult`, which has an explicit `panicked` outcome;
* storage-assigned integer ids follow SQLite rowid assignment: one more than
  the largest existing id in the table.

Connection-pool acquisition errors are not modelled (they abort every
operation before it touches the state and are orthogonal to the claims).
-/

/-- Modelled from the spec: the `OS` enum (`datatype_endpoint` is not part of
the shown sources).  The spec describes it as a closed, fixed enumeration and
names Windows and Linux. -/
inductive OS where
  | windows
  | linux
deriving DecidableEq, Repr

/-- Domain record `GameMetadataCreate` from `datatype_endpoint`. -/
structure GameMetadataCreate where
  known_name : List String
  steam_appid : Option String
  default_name : String
deriving DecidableEq, Repr

/-- Domain record `GameMetadata`. -/
structure GameMetadata where
  id : Option Int
  metadata : GameMetadataCreate
deriving DecidableEq, Repr

/-- Domain record `SavePathCreate`. -/
structure SavePathCreate where
  path : String
  operating_system : OS
deriving DecidableEq, Repr

/-- Domain record `SavePath`. -/
structure SavePath where
  id : Option Int
  path : SavePathCreate
deriving DecidableEq, Repr

/-- Domain record `ExecutableCreate`. -/
structure ExecutableCreate where
  executable : String
  operating_system : OS
deriving DecidableEq, Repr

/-- Domain record `Executable`. -/
structure Executable where
  id : Option Int
  executable : ExecutableCreate
deriving DecidableEq, Repr

/-- Domain record `FileHash`. -/
structure FileHash where
  relative_path : String
  hash : String
deriving DecidableEq, Repr

/-- Domain record `SaveReference` (`time` is unix seconds). -/
structure SaveReference where
  uuid : String
  path_id : Int
  time : Int
  files_hash : List FileHash
deriving DecidableEq, Repr

/-- Row of table `game_metadata` (`DbGameMetadata`); `id` is the nullable
storage-assigned key. -/
structure DbGameMetadata where
  id : Option Int
  steam_appid : Option String
  default_name : String
deriving DecidableEq, Repr

/-- Row of table `game_alt_name` (`DbGameName`). -/
structure DbGameName where
  name : String
  game_metadata_id : Int
deriving DecidableEq, Repr

/-- Row of table `game_path` (`DbGamePath`). -/
structure DbGamePath where
  id : Option Int
  path : String
  operating_system : OS
  game_metadata_id : Int
deriving DecidableEq, Repr

/-- Row of table `game_executable` (`DbGameExecutable`). -/
structure DbGameExecutable where
  id : Option Int
  executable : String
  operating_system : OS
  game_metadata_id : Int
deriving DecidableEq, Repr

/-- Row of table `game_save` (`DbGameSave`); `uuid` is stored as the string
rendering of the caller's Uuid, `time` as a UTC timestamp (unix seconds in
the model). -/
structure DbGameSave where
  uuid : String
  path_id : Int
  time : Int
deriving DecidableEq, Repr

/-- Row of table `file_hash` (`DbFileHash`). -/
structure DbFileHash where
  relative_path : String
  hash : String
  game_save_uuid : String
deriving DecidableEq, Repr

/-- The whole store: one list per table, in insertion (rowid) order. -/
structure DbState where
  game_metadata : List DbGameMetadata
  game_alt_name : List DbGameName
  game_path : List DbGamePath
  game_executable : List DbGameExecutable
  game_save : List DbGameSave
  file_hash : List DbFileHash
deriving DecidableEq, Repr

/-- The empty store (freshly migrated database). -/
def DbState.empty : DbState :=
  { game_metadata := [], game_alt_name := [], game_path := [],
    game_executable := [], game_save := [], file_hash := [] }

/-- Errors surfaced by the repository: `storage` stands for an engine-level
failure (the boxed diesel error), `notFound` for diesel's NotFound from
`first()` on an empty result, and `integrity` for the repository's own
string error (the code's `"Failed to get inserted id".into()`). -/
inductive DbError where
  | storage
  | notFound
  | integrity (msg : String)
deriving DecidableEq, Repr

/-- Outcome of an operation whose Rust body can `unwrap` a `None`:
`panicked` models the Rust panic (neither `Ok` nor `Err`). -/
inductive RunResult (α : Type) where
  | ok (a : α)
  | err (e : DbError)
  | panicked
deriving DecidableEq, Repr

/-- SQLite rowid assignment for `game_metadata`: one more than the largest
existing id (non-null ids only; 0 when the table has none). -/
def nextMetaId (st : DbState) : Int :=
  ((st.game_metadata.filterMap (fun r => r.id)).foldl max 0) + 1

/-- `game_metadata::table.select(game_metadata::id).order(game_metadata::id.desc()).first(...)`:
errors with NotFound on an empty table, otherwise yields the id column of the
top row under `ORDER BY id DESC` — the largest non-null id when one exists
(NULL sorts last in descending order), and NULL when every stored id is null. -/
def selectLatestId (rows : List DbGameMetadata) : Except DbError (Option Int) :=
  if rows.isEmpty then .error .notFound
  else .ok (rows.filterMap (fun r => r.id)).max?

/-- Engine faults injectable during `add_game_metadata`: failure of the
metadata INSERT, the id lookup observing no resolvable id (the concurrent
race the spec describes), and failure of the alias batch INSERT. -/
structure AddMetaFaults where
  metaInsert : Bool
  idLookup : Bool
  altInsert : Bool
deriving DecidableEq, Repr

/-- No injected engine faults for `add_game_metadata`. -/
def AddMetaFaults.none : AddMetaFaults :=
  { metaInsert := false, idLookup := false, altInsert := false }

/-- The `DbGameMetadata` row stored by the metadata INSERT of
`add_game_metadata` (the engine assigns the id). -/
def newMetaRow (st : DbState) (g : GameMetadataCreate) : DbGameMetadata :=
  { id := some (nextMetaId st), steam_appid := g.steam_appid,
    default_name := g.default_name }

/-- Transaction body of `add_game_metadata`: INSERT the metadata row, look
the new id up by `ORDER BY id DESC LIMIT 1`, fail with the string error when
it is null, then INSERT one `game_alt_name` row per `known_name` entry. -/
def addMetaBody (flt : AddMetaFaults) (st : DbState) (g : GameMetadataCreate) :
    Except DbError DbState :=
  if flt.metaInsert then .error .storage
  else
    let st1 : DbState :=
      { st with game_metadata := st.game_metadata ++ [newMetaRow st g] }
    let lookup : Except DbError (Option Int) :=
      if flt.idLookup then .ok Option.none else selectLatestId st1.game_metadata
    match lookup with
    | .error e => .error e
    | .ok Option.none => .error (.integrity "Failed to get inserted id")
    | .ok (some inserted_id) =>
      if flt.altInsert then .error .storage
      else .ok { st1 with game_alt_name := st1.game_alt_name ++
          g.known_name.map (fun n => { name := n, game_metadata_id := inserted_id }) }

/-- `add_game_metadata`: the body runs in `immediate_transaction`, so an
`Err` outcome restores the pre-call state (rollback) and an `Ok` outcome
commits the body's final state. -/
def add_game_metadata (flt : AddMetaFaults) (st : DbState)
    (g : GameMetadataCreate) : Except DbError Unit × DbState :=
  match addMetaBody flt st g with
  | .ok st' => (.ok (), st')
  | .error e => (.error e, st)

/-- Alt-name hydration loop shared by `get_game_metadata_by_name` and
`get_games_metadata`: for each metadata row, `unwrap` its id (panicking on
null) and load the `game_alt_name` names filtered by that id. -/
def hydrateGames (st : DbState) : List DbGameMetadata → RunResult (List GameMetadata)
  | [] => .ok []
  | db_game :: rest =>
    match db_game.id with
    | Option.none => .panicked
    | some i =>
      let known_name : List String :=
        (st.game_alt_name.filter (fun a => a.game_metadata_id = i)).map (fun a => a.name)
      let record : GameMetadata :=
        { id := db_game.id,
          metadata := { known_name := known_name, steam_appid := db_game.steam_appid,
                        default_name := db_game.default_name } }
      match hydrateGames st rest with
      | .ok games => .ok (record :: games)
      | r => r

/-- `get_game_metadata_by_name`: exact filter on `default_name`, then the
hydration loop (which `unwrap`s each row's id). -/
def get_game_metadata_by_name (st : DbState) (target_name : String) :
    RunResult (List GameMetadata) :=
  hydrateGames st (st.game_metadata.filter (fun r => r.default_name = target_name))

/-- `get_games_metadata`: full scan, then the hydration loop (which
`unwrap`s each row's id). -/
def get_games_metadata (st : DbState) : RunResult (List GameMetadata) :=
  hydrateGames st st.game_metadata

/-- `get_game_metadata_by_id`: `filter(id.eq(target)).first().optional()` —
SQL equality never matches a NULL id, so `find?` tests `id = some target`;
a null id on the found row maps to `Ok None`; otherwise the alt-names are
loaded by the id and the hydrated record returned. -/
def get_game_metadata_by_id (st : DbState) (target_id : Int) :
    Except DbError (Option GameMetadata) :=
  match st.game_metadata.find? (fun r => r.id = some target_id) with
  | Option.none => .ok Option.none
  | some meta =>
    match meta.id with
    | Option.none => .ok Option.none
    | some i =>
      let name_rows : List String :=
        (st.game_alt_name.filter (fun a => a.game_metadata_id = i)).map (fun a => a.name)
      let record : GameMetadata :=
        { id := some i,
          metadata := { known_name := name_rows, steam_appid := meta.steam_appid,
                        default_name := meta.default_name } }
      .ok (some record)

/-- SQLite rowid assignment for `game_path`. -/
def nextPathId (st : DbState) : Int :=
  ((st.game_path.filterMap (fun r => r.id)).foldl max 0) + 1

/-- `add_game_path`: single INSERT of a `game_path` row carrying the
caller-supplied `game_id` unchanged; no referential check is performed. -/
def add_game_path (st : DbState) (game_id : Int) (p : SavePathCreate) :
    Except DbError Unit × DbState :=
  (.ok (), { st with game_path := st.game_path ++
      [{ id := some (nextPathId st), path := p.path,
         operating_system := p.operating_system, game_metadata_id := game_id }] })

/-- `get_paths_by_game_id_and_os`: exact filter on both `game_metadata_id`
and `operating_system`, projecting the `path` column. -/
def get_paths_by_game_id_and_os (st : DbState) (game_id : Int) (os : OS) :
    Except DbError (List String) :=
  .ok ((st.game_path.filter
      (fun r => r.game_metadata_id = game_id ∧ r.operating_system = os)).map
    (fun r => r.path))

/-- SQLite rowid assignment for `game_executable`. -/
def nextExecutableId (st : DbState) : Int :=
  ((st.game_executable.filterMap (fun r => r.id)).foldl max 0) + 1

/-- `add_game_executable`: single INSERT of a `game_executable` row carrying
the caller-supplied `game_id` unchanged; no referential check is performed. -/
def add_game_executable (st : DbState) (game_id : Int) (e : ExecutableCreate) :
    Except DbError Unit × DbState :=
  (.ok (), { st with game_executable := st.game_executable ++
      [{ id := some (nextExecutableId st), executable := e.executable,
         operating_system := e.operating_system, game_metadata_id := game_id }] })

/-- Engine faults injectable during `add_reference_to_save`: failure of the
`game_save` INSERT, and the index of the first failing `file_hash` INSERT
(if any). -/
structure AddSaveFaults where
  saveInsert : Bool
  fileInsert : Option Nat
deriving DecidableEq, Repr

/-- No injected engine faults for `add_reference_to_save`. -/
def AddSaveFaults.none : AddSaveFaults :=
  { saveInsert := false, fileInsert := Option.none }

/-- The `file_hash` INSERT loop of `add_reference_to_save`: inserts the
rows one by one (each tagged with the save's uuid); the INSERT at index
`failAt` fails with an engine error. -/
def insertFileHashes (failAt : Option Nat) (uuid : String) :
    List FileHash → List DbFileHash → Nat → Except DbError (List DbFileHash)
  | [], table, _ => .ok table
  | f :: rest, table, i =>
    if failAt = some i then .error .storage
    else insertFileHashes failAt uuid rest
      (table ++ [{ relative_path := f.relative_path, hash := f.hash,
                   game_save_uuid := uuid }]) (i + 1)

/-- Transaction body of `add_reference_to_save`: INSERT the `game_save` row
(timestamp = call time), then one `file_hash` row per entry of `files_hash`,
each tagged with the same uuid. -/
def addSaveBody (flt : AddSaveFaults) (st : DbState) (uuid : String)
    (path_id : Int) (files_hash : List FileHash) (now : Int) :
    Except DbError DbState :=
  if flt.saveInsert then .error .storage
  else
    let st1 : DbState :=
      { st with game_save := st.game_save ++ [{ uuid := uuid, path_id := path_id, time := now }] }
    match insertFileHashes flt.fileInsert uuid files_hash st1.file_hash 0 with
    | .error e => .error e
    | .ok table => .ok { st1 with file_hash := table }

/-- `add_reference_to_save`: the body runs in `immediate_transaction`, so an
`Err` outcome restores the pre-call state (rollback) and an `Ok` outcome
commits the body's final state. -/
def add_reference_to_save (flt : AddSaveFaults) (st : DbState) (uuid : String)
    (path_id : Int) (files_hash : List FileHash) (now : Int) :
    Except DbError Unit × DbState :=
  match addSaveBody flt st uuid path_id files_hash now with
  | .ok st' => (.ok (), st')
  | .error e => (.error e, st)

/-- The `FileHash` record produced from a `file_hash` row. -/
def toFileHash (f : DbFileHash) : FileHash :=
  { relative_path := f.relative_path, hash := f.hash }

/-- The `SaveReference` built for one `game_save` row: its own fields plus
its `file_hash` children, fetched by `belonging_to` (keyed by the parent's
uuid). -/
def mkSaveReference (st : DbState) (s : DbGameSave) : SaveReference :=
  { uuid := s.uuid, path_id := s.path_id, time := s.time,
    files_hash := (st.file_hash.filter (fun f => f.game_save_uuid = s.uuid)).map toFileHash }

/-- `get_reference_to_save_by_path_id`: load every `game_save` with the
given `path_id`; `None` when there are none; otherwise, per save, fetch its
owned `file_hash` rows keyed by uuid. -/
def get_reference_to_save_by_path_id (st : DbState) (path_id : Int) :
    Except DbError (Option (List SaveReference)) :=
  let save_rows := st.game_save.filter (fun s => s.path_id = path_id)
  if save_rows.isEmpty then .ok Option.none
  else .ok (some (save_rows.map (mkSaveReference st)))

/-- The `game_alt_name` rows committed for a metadata insert. -/
def metaAliasRows (st : DbState) (g : GameMetadataCreate) : List DbGameName :=
  g.known_name.map (fun n => { name := n, game_metadata_id := nextMetaId st })

/-- The state `add_game_metadata` commits when no engine fault occurs: the
metadata row plus one alias row per `known_name` entry, all other tables
untouched. -/
def addMetaCommitted (st : DbState) (g : GameMetadataCreate) : DbState :=
  { st with game_metadata := st.game_metadata ++ [newMetaRow st g],
            game_alt_name := st.game_alt_name ++ metaAliasRows st g }

/-- The `file_hash` rows committed for one save snapshot. -/
def saveFileRows (uuid : String) (files : List FileHash) : List DbFileHash :=
  files.map (fun f => { relative_path := f.relative_path, hash := f.hash,
                        game_save_uuid := uuid })

/-- The state `add_reference_to_save` commits when no engine fault occurs:
one `game_save` row plus one `file_hash` row per entry, all other tables
untouched. -/
def addSaveCommitted (st : DbState) (uuid : String) (path_id : Int)
    (files : List FileHash) (now : Int) : DbState :=
  { st with game_save := st.game_save ++ [{ uuid := uuid, path_id := path_id, time := now }],
            file_hash := st.file_hash ++ saveFileRows uuid files }

/-- A concrete `GameMetadataCreate` used to instantiate proved contracts. -/
def exCreate : GameMetadataCreate :=
  { known_name := ["F", "Foo Deluxe"], steam_appid := some "42",
    default_name := "Foo" }

/-- A concrete store holding two saves for path 7, each with its own
`file_hash` rows, used to instantiate proved contracts. -/
def exStateTwoSaves : DbState :=
  { DbState.empty with
      game_save := [{ uuid := "abc", path_id := 7, time := 5 },
                    { uuid := "def", path_id := 7, time := 9 }],
      file_hash := [{ relative_path := "s1.dat", hash := "h1", game_save_uuid := "abc" },
                    { relative_path := "s2.dat", hash := "h2", game_save_uuid := "def" }] }

/-- A concrete store whose single `game_metadata` row has a null id, used to
instantiate proved contracts. -/
def exStateNullId : DbState :=
  { DbState.empty with
      game_metadata := [{ id := Option.none, steam_appid := Option.none,
                          default_name := "Foo" }] }

/-! ### Auxiliary lemmas about the id-assignment arithmetic -/

lemma int_le_foldl_max (l : List Int) (a : Int) : a ≤ l.foldl max a := by
  induction l generalizing a with
  | nil => exact le_refl a
  | cons b t ih =>
    rw [List.foldl_cons]
    exact le_trans (le_max_left a b) (ih (max a b))

lemma int_mem_le_foldl_max (l : List Int) (a : Int) : ∀ x ∈ l, x ≤ l.foldl max a := by
  induction l generalizing a with
  | nil => intro x hx; cases hx
  | cons b t ih =>
    intro x hx
    rw [List.foldl_cons]
    rcases List.mem_cons.1 hx with h | h
    · subst h
      exact le_trans (le_max_right a x) (int_le_foldl_max t (max a x))
    · exact ih (max a b) x h

lemma int_foldl_max_le (l : List Int) (a n : Int) (ha : a ≤ n)
    (h : ∀ x ∈ l, x ≤ n) : l.foldl max a ≤ n := by
  induction l generalizing a with
  | nil => exact ha
  | cons b t ih =>
    rw [List.foldl_cons]
    exact ih (max a b) (max_le ha (h b (List.mem_cons_self b t)))
      (fun x hx => h x (List.mem_cons_of_mem b hx))

lemma int_max?_concat (l : List Int) (n : Int) (h : ∀ x ∈ l, x ≤ n) :
    (l ++ [n]).max? = some n := by
  cases l with
  | nil => rfl
  | cons a t =>
    rw [List.cons_append, List.max?_cons', List.foldl_append]
    rw [List.foldl_cons, List.foldl_nil]
    have ha : a ≤ n := h a (List.mem_cons_self a t)
    have ht : ∀ x ∈ t, x ≤ n := fun x hx => h x (List.mem_cons_of_mem a hx)
    rw [max_eq_right (int_foldl_max_le t a n ha ht)]

/-- Every non-null id stored in `game_metadata` is strictly below the id the
engine assigns next. -/
lemma mem_id_lt_nextMetaId (st : DbState) :
    ∀ x ∈ st.game_metadata.filterMap (fun r => r.id), x < nextMetaId st := by
  intro x hx
  exact lt_of_le_of_lt (int_mem_le_foldl_max _ 0 x hx) (lt_add_one _)

/-- After the metadata INSERT, the `ORDER BY id DESC LIMIT 1` lookup resolves
exactly the id the engine just assigned. -/
lemma selectLatestId_after_insert (st : DbState) (g : GameMetadataCreate) :
    selectLatestId (st.game_metadata ++ [newMetaRow st g]) =
      .ok (some (nextMetaId st)) := by
  unfold selectLatestId
  rw [if_neg (by simp)]
  rw [List.filterMap_append]
  have hone : List.filterMap (fun r => r.id) [newMetaRow st g] = [nextMetaId st] := rfl
  rw [hone, int_max?_concat]
  intro x hx
  exact le_of_lt (mem_id_lt_nextMetaId st x hx)

/-! ### Characterisation of the `add_game_metadata` transaction -/

/-- The transaction body of `add_game_metadata` succeeds only on the
fully-committed state. -/
lemma addMetaBody_ok {flt : AddMetaFaults} {st st' : DbState}
    {g : GameMetadataCreate} (h : addMetaBody flt st g = .ok st') :
    st' = addMetaCommitted st g := by
  unfold addMetaBody at h
  cases hm : flt.metaInsert with
  | true => rw [hm] at h; exact absurd h (by simp)
  | false =>
    rw [hm] at h
    simp only [if_false, Bool.false_eq_true] at h
    cases hl : flt.idLookup with
    | true => rw [hl] at h; simp at h
    | false =>
      rw [hl] at h
      simp only [if_false, Bool.false_eq_true, selectLatestId_after_insert st g] at h
      cases ha : flt.altInsert with
      | true => rw [ha] at h; simp at h
      | false =>
        rw [ha] at h
        simp only [if_false, Bool.false_eq_true, Except.ok.injEq] at h
        subst h
        rfl

/-- With no injected fault the transaction body commits. -/
lemma addMetaBody_noFault (st : DbState) (g : GameMetadataCreate) :
    addMetaBody AddMetaFaults.none st g = .ok (addMetaCommitted st g) := by
  unfold addMetaBody AddMetaFaults.none
  simp only [if_false, selectLatestId_after_insert st g]
  rfl

/-- C1: `add_game_metadata` inserts the `GameMetadata` row and every
`AltName` row in one transaction: for every `GameMetadataCreate` input and
every injectable engine fault, after the call either all rows exist (the
metadata row plus one alias row per `known_name` entry — the committed
state) or none do (the state is exactly the pre-call state); in particular
a failing alias insert leaves the metadata row unobservable. -/
theorem add_game_metadata_atomic (flt : AddMetaFaults) (st : DbState)
    (g : GameMetadataCreate) :
    (∀ u : Unit, (add_game_metadata flt st g).1 = .ok u →
      (add_game_metadata flt st g).2 = addMetaCommitted st g) ∧
    (∀ e : DbError, (add_game_metadata flt st g).1 = .error e →
      (add_game_metadata flt st g).2 = st) := by
  unfold add_game_metadata
  cases hb : addMetaBody flt st g with
  | ok st' =>
    refine ⟨fun u _ => addMetaBody_ok hb, fun e he => ?_⟩
    exact absurd he (by simp)
  | error e' =>
    exact ⟨fun u hu => absurd hu (by simp), fun e _ => rfl⟩

/-- Witness for C1: on the empty store, the fault-free call commits all
rows, and a failing metadata insert leaves the store unchanged. -/
theorem add_game_metadata_atomic_witness :
    (add_game_metadata AddMetaFaults.none DbState.empty exCreate).2 =
      addMetaCommitted DbState.empty exCreate ∧
    (add_game_metadata { metaInsert := true, idLookup := false, altInsert := false }
        DbState.empty exCreate).2 = DbState.empty :=
  ⟨(add_game_metadata_atomic AddMetaFaults.none DbState.empty exCreate).1 () (by rfl),
   (add_game_metadata_atomic { metaInsert := true, idLookup := false, altInsert := false }
      DbState.empty exCreate).2 .storage (by rfl)⟩

/-- C8: `add_game_metadata` fails with the storage error when either
underlying INSERT fails, and with the integrity error (the code's
`"Failed to get inserted id"`) when the follow-up id lookup cannot resolve
the new row's identifier; in every failure case the transaction aborts and
the state is exactly the pre-call state (no rows from the call remain). -/
theorem add_game_metadata_error_taxonomy (flt : AddMetaFaults) (st : DbState)
    (g : GameMetadataCreate) :
    (flt.metaInsert = true → add_game_metadata flt st g = (.error .storage, st)) ∧
    (flt.metaInsert = false → flt.idLookup = true →
      add_game_metadata flt st g =
        (.error (.integrity "Failed to get inserted id"), st)) ∧
    (flt.metaInsert = false → flt.idLookup = false → flt.altInsert = true →
      add_game_metadata flt st g = (.error .storage, st)) := by
  refine ⟨fun h1 => ?_, fun h1 h2 => ?_, fun h1 h2 h3 => ?_⟩
  · unfold add_game_metadata addMetaBody
    rw [h1]
    rfl
  · unfold add_game_metadata addMetaBody
    rw [h1, h2]
    rfl
  · unfold add_game_metadata addMetaBody
    rw [h1, h2, h3]
    simp only [if_false, Bool.false_eq_true, selectLatestId_after_insert st g, if_true]

/-- Witness for C8: each failure mode observed on the empty store. -/
theorem add_game_metadata_error_taxonomy_witness :
    add_game_metadata { metaInsert := true, idLookup := false, altInsert := false }
        DbState.empty exCreate = (.error .storage, DbState.empty) ∧
    add_game_metadata { metaInsert := false, idLookup := true, altInsert := false }
        DbState.empty exCreate =
      (.error (.integrity "Failed to get inserted id"), DbState.empty) ∧
    add_game_metadata { metaInsert := false, idLookup := false, altInsert := true }
        DbState.empty exCreate = (.error .storage, DbState.empty) :=
  ⟨(add_game_metadata_error_taxonomy _ DbState.empty exCreate).1 rfl,
   (add_game_metadata_error_taxonomy _ DbState.empty exCreate).2.1 rfl rfl,
   (add_game_metadata_error_taxonomy _ DbState.empty exCreate).2.2 rfl rfl rfl⟩

/-- No row already stored in `game_metadata` carries the id the engine is
about to assign. -/
lemma stored_id_ne_nextMetaId (st : DbState) :
    ∀ r ∈ st.game_metadata, ¬ r.id = some (nextMetaId st) := by
  intro r hr hid
  have hmem : nextMetaId st ∈ st.game_metadata.filterMap (fun r => r.id) :=
    List.mem_filterMap.2 ⟨r, hr, hid⟩
  exact absurd (mem_id_lt_nextMetaId st _ hmem) (lt_irrefl _)

/-- C2: round-trip — `add_game_metadata` (fault-free) followed by
`get_game_metadata_by_id` on the id the insert assigned yields the stored
record with exactly the original `known_name` list (hence the same alt-name
set, order-irrelevant), provided no pre-existing alias row already carries
the about-to-be-assigned id (the no-orphan invariant guarantees this). -/
theorem add_game_metadata_get_round_trip (st : DbState) (g : GameMetadataCreate)
    (h : ∀ a ∈ st.game_alt_name, a.game_metadata_id ≠ nextMetaId st) :
    (add_game_metadata AddMetaFaults.none st g).1 = .ok () ∧
    get_game_metadata_by_id (add_game_metadata AddMetaFaults.none st g).2
        (nextMetaId st) =
      .ok (some { id := some (nextMetaId st),
                  metadata := { known_name := g.known_name,
                                steam_appid := g.steam_appid,
                                default_name := g.default_name } }) := by
  have hcall : add_game_metadata AddMetaFaults.none st g =
      (.ok (), addMetaCommitted st g) := by
    unfold add_game_metadata
    rw [addMetaBody_noFault]
  refine ⟨by rw [hcall], ?_⟩
  rw [hcall]
  unfold get_game_metadata_by_id addMetaCommitted
  have hfind : ((st.game_metadata ++ [newMetaRow st g]).find?
      (fun r => r.id = some (nextMetaId st))) = some (newMetaRow st g) := by
    rw [List.find?_append]
    have hnone : (st.game_metadata.find?
        (fun r => r.id = some (nextMetaId st))) = Option.none := by
      rw [List.find?_eq_none]
      intro r hr
      simp only [decide_eq_true_eq]
      exact stored_id_ne_nextMetaId st r hr
    rw [hnone]
    simp [newMetaRow]
  simp only [hfind]
  have hfilter : ((st.game_alt_name ++ metaAliasRows st g).filter
      (fun a => a.game_metadata_id = nextMetaId st)) = metaAliasRows st g := by
    rw [List.filter_append]
    have h1 : (st.game_alt_name.filter
        (fun a => a.game_metadata_id = nextMetaId st)) = [] := by
      rw [List.filter_eq_nil_iff]
      intro a ha
      simp only [decide_eq_true_eq]
      exact h a ha
    have h2 : ((metaAliasRows st g).filter
        (fun a => a.game_metadata_id = nextMetaId st)) = metaAliasRows st g := by
      rw [List.filter_eq_self]
      intro a ha
      rcases List.mem_map.1 ha with ⟨n, _, rfl⟩
      simp
    rw [h1, h2, List.nil_append]
  simp only [newMetaRow, hfilter]
  have hnames : ((metaAliasRows st g).map (fun a => a.name)) = g.known_name := by
    unfold metaAliasRows
    rw [List.map_map]
    exact List.map_id'' (fun x => rfl) g.known_name
  simp [hnames]

/-- Witness for C2: the round trip observed on the empty store with a
two-alias record. -/
theorem add_game_metadata_get_round_trip_witness :
    get_game_metadata_by_id
        (add_game_metadata AddMetaFaults.none DbState.empty exCreate).2
        (nextMetaId DbState.empty) =
      .ok (some { id := some (nextMetaId DbState.empty),
                  metadata := { known_name := exCreate.known_name,
                                steam_appid := exCreate.steam_appid,
                                default_name := exCreate.default_name } }) :=
  (add_game_metadata_get_round_trip DbState.empty exCreate
    (by intro a ha; cases ha)).2

/-! ### Characterisation of the `add_reference_to_save` transaction -/

/-- A fault-free `file_hash` INSERT loop appends exactly one row per entry,
each tagged with the save's uuid. -/
lemma insertFileHashes_noFault (uuid : String) (files : List FileHash) :
    ∀ (table : List DbFileHash) (i : Nat),
      insertFileHashes Option.none uuid files table i =
        .ok (table ++ saveFileRows uuid files) := by
  induction files with
  | nil => intro table i; simp [insertFileHashes, saveFileRows]
  | cons f rest ih =>
    intro table i
    rw [insertFileHashes, if_neg (by simp), ih]
    simp [saveFileRows]

/-- Whenever the `file_hash` INSERT loop succeeds, it has appended exactly
one row per entry, each tagged with the save's uuid. -/
lemma insertFileHashes_ok (uuid : String) (files : List FileHash) :
    ∀ (failAt : Option Nat) (table table' : List DbFileHash) (i : Nat),
      insertFileHashes failAt uuid files table i = .ok table' →
      table' = table ++ saveFileRows uuid files := by
  induction files with
  | nil =>
    intro failAt table table' i h
    rw [insertFileHashes] at h
    simp only [Except.ok.injEq] at h
    simp [← h, saveFileRows]
  | cons f rest ih =>
    intro failAt table table' i h
    rw [insertFileHashes] at h
    by_cases hf : failAt = some i
    · rw [if_pos hf] at h; cases h
    · rw [if_neg hf] at h
      have := ih failAt _ table' (i + 1) h
      simp [this, saveFileRows]

/-- A `file_hash` INSERT that fails within the batch aborts the loop with
the storage error. -/
lemma insertFileHashes_fails (uuid : String) (files : List FileHash) :
    ∀ (k i : Nat) (table : List DbFileHash), i ≤ k → k < i + files.length →
      insertFileHashes (some k) uuid files table i = .error .storage := by
  induction files with
  | nil =>
    intro k i table h1 h2
    simp at h2
    exact absurd h1 (by omega)
  | cons f rest ih =>
    intro k i table h1 h2
    rw [insertFileHashes]
    by_cases hf : k = i
    · rw [if_pos (by rw [hf])]
    · rw [if_neg (by simp; omega)]
      exact ih k (i + 1) _ (by omega) (by simp at h2 ⊢; omega)

/-- The transaction body of `add_reference_to_save` succeeds only on the
fully-committed state. -/
lemma addSaveBody_ok {flt : AddSaveFaults} {st st' : DbState} {uuid : String}
    {path_id : Int} {files_hash : List FileHash} {now : Int}
    (h : addSaveBody flt st uuid path_id files_hash now = .ok st') :
    st' = addSaveCommitted st uuid path_id files_hash now := by
  unfold addSaveBody at h
  cases hs : flt.saveInsert with
  | true => rw [hs] at h; cases h
  | false =>
    rw [hs] at h
    simp only [if_false, Bool.false_eq_true] at h
    cases hins : insertFileHashes flt.fileInsert uuid files_hash st.file_hash 0 with
    | error e => rw [hins] at h; cases h
    | ok table =>
      rw [hins] at h
      simp only [Except.ok.injEq] at h
      have := insertFileHashes_ok uuid files_hash flt.fileInsert _ _ 0 hins
      rw [← h, this]
      rfl

/-- With no injected fault the transaction body commits. -/
lemma addSaveBody_noFault (st : DbState) (uuid : String) (path_id : Int)
    (files_hash : List FileHash) (now : Int) :
    addSaveBody AddSaveFaults.none st uuid path_id files_hash now =
      .ok (addSaveCommitted st uuid path_id files_hash now) := by
  unfold addSaveBody
  simp only [AddSaveFaults.none, Bool.false_eq_true, if_false,
    insertFileHashes_noFault]
  rfl

/-- Any in-range injected `file_hash` INSERT failure makes the whole
transaction body of `add_reference_to_save` fail with the storage error. -/
lemma addSaveBody_fileFault (flt : AddSaveFaults) (st : DbState)
    (uuid : String) (path_id : Int) (files_hash : List FileHash) (now : Int)
    (k : Nat) (hk : flt.fileInsert = some k) (hlen : k < files_hash.length) :
    addSaveBody flt st uuid path_id files_hash now = .error .storage := by
  unfold addSaveBody
  cases hs : flt.saveInsert with
  | true => rfl
  | false =>
    simp only [Bool.false_eq_true, if_false]
    rw [hk, insertFileHashes_fails uuid files_hash k 0 st.file_hash
      (Nat.zero_le k) (by simpa using hlen)]

/-- C3: `add_reference_to_save` is atomic — for every injectable engine
fault, either the call succeeds and commits exactly one `game_save` row plus
one `file_hash` row per entry (all tagged with the same uuid), or it fails
and the state is exactly the pre-call state; and any failing `file_hash`
INSERT within the batch makes the call fail (hence rolls everything back,
including the `game_save` row). -/
theorem add_reference_to_save_atomic (flt : AddSaveFaults) (st : DbState)
    (uuid : String) (path_id : Int) (files_hash : List FileHash) (now : Int) :
    (∀ u : Unit, (add_reference_to_save flt st uuid path_id files_hash now).1 = .ok u →
      (add_reference_to_save flt st uuid path_id files_hash now).2 =
        addSaveCommitted st uuid path_id files_hash now) ∧
    (∀ e : DbError, (add_reference_to_save flt st uuid path_id files_hash now).1 = .error e →
      (add_reference_to_save flt st uuid path_id files_hash now).2 = st) ∧
    (∀ k : Nat, flt.fileInsert = some k → k < files_hash.length →
      (add_reference_to_save flt st uuid path_id files_hash now).1 = .error .storage) := by
  unfold add_reference_to_save
  cases hb : addSaveBody flt st uuid path_id files_hash now with
  | ok st' =>
    refine ⟨fun u _ => addSaveBody_ok hb, fun e he => absurd he (by simp),
      fun k hk hlen => ?_⟩
    rw [addSaveBody_fileFault flt st uuid path_id files_hash now k hk hlen] at hb
    cases hb
  | error e' =>
    refine ⟨fun u hu => absurd hu (by simp), fun e _ => rfl, fun k hk hlen => ?_⟩
    have hst := addSaveBody_fileFault flt st uuid path_id files_hash now k hk hlen
    rw [hst] at hb
    injection hb with h
    rw [← h]

/-- Witness for C3: on a concrete store, the fault-free call commits the
save row and its file-hash row, and an injected failure of the only
file-hash INSERT aborts the call and leaves the store unchanged. -/
theorem add_reference_to_save_atomic_witness :
    (add_reference_to_save AddSaveFaults.none DbState.empty "abc" 7
        [{ relative_path := "s1.dat", hash := "h1" }] 5).2 =
      addSaveCommitted DbState.empty "abc" 7
        [{ relative_path := "s1.dat", hash := "h1" }] 5 ∧
    (add_reference_to_save { saveInsert := false, fileInsert := some 0 }
        DbState.empty "abc" 7 [{ relative_path := "s1.dat", hash := "h1" }] 5).1 =
      .error .storage ∧
    (add_reference_to_save { saveInsert := false, fileInsert := some 0 }
        DbState.empty "abc" 7 [{ relative_path := "s1.dat", hash := "h1" }] 5).2 =
      DbState.empty :=
  ⟨(add_reference_to_save_atomic AddSaveFaults.none DbState.empty "abc" 7
      [{ relative_path := "s1.dat", hash := "h1" }] 5).1 () (by rfl),
   (add_reference_to_save_atomic { saveInsert := false, fileInsert := some 0 }
      DbState.empty "abc" 7 [{ relative_path := "s1.dat", hash := "h1" }] 5).2.2
     0 rfl (by simp),
   (add_reference_to_save_atomic { saveInsert := false, fileInsert := some 0 }
      DbState.empty "abc" 7 [{ relative_path := "s1.dat", hash := "h1" }] 5).2.1
     .storage (by rfl)⟩

/-- C4: empty-snapshot validity — for any uuid and path id (fresh in the
store), `add_reference_to_save` with an empty file-hash list succeeds,
creates exactly one `game_save` row and no `file_hash` row, and a
subsequent `get_reference_to_save_by_path_id` returns a present result
holding one `SaveReference` with an empty `files_hash` list (not an absent
result). -/
theorem add_reference_to_save_empty_snapshot (st : DbState) (uuid : String)
    (path_id now : Int)
    (hs : ∀ s ∈ st.game_save, s.path_id ≠ path_id)
    (hf : ∀ f ∈ st.file_hash, f.game_save_uuid ≠ uuid) :
    (add_reference_to_save AddSaveFaults.none st uuid path_id [] now).1 = .ok () ∧
    (add_reference_to_save AddSaveFaults.none st uuid path_id [] now).2.game_save =
      st.game_save ++ [{ uuid := uuid, path_id := path_id, time := now }] ∧
    (add_reference_to_save AddSaveFaults.none st uuid path_id [] now).2.file_hash =
      st.file_hash ∧
    get_reference_to_save_by_path_id
        (add_reference_to_save AddSaveFaults.none st uuid path_id [] now).2 path_id =
      .ok (some [{ uuid := uuid, path_id := path_id, time := now, files_hash := [] }]) := by
  have hcall : add_reference_to_save AddSaveFaults.none st uuid path_id [] now =
      (.ok (), addSaveCommitted st uuid path_id [] now) := by
    unfold add_reference_to_save
    rw [addSaveBody_noFault]
  rw [hcall]
  have hfh : (addSaveCommitted st uuid path_id [] now).file_hash = st.file_hash := by
    unfold addSaveCommitted saveFileRows
    simp
  refine ⟨rfl, rfl, hfh, ?_⟩
  unfold get_reference_to_save_by_path_id
  have hrows : ((addSaveCommitted st uuid path_id [] now).game_save.filter
      (fun s => s.path_id = path_id)) =
      [{ uuid := uuid, path_id := path_id, time := now }] := by
    unfold addSaveCommitted
    rw [List.filter_append]
    have h1 : (st.game_save.filter (fun s => s.path_id = path_id)) = [] := by
      rw [List.filter_eq_nil_iff]
      intro s hsm
      simp only [decide_eq_true_eq]
      exact hs s hsm
    rw [h1, List.nil_append]
    simp
  rw [hrows]
  simp only [List.isEmpty_cons, List.map_cons, List.map_nil]
  have hmk : mkSaveReference (addSaveCommitted st uuid path_id [] now)
      { uuid := uuid, path_id := path_id, time := now } =
      { uuid := uuid, path_id := path_id, time := now, files_hash := [] } := by
    unfold mkSaveReference
    rw [hfh]
    have h2 : (st.file_hash.filter (fun f => f.game_save_uuid = uuid)) = [] := by
      rw [List.filter_eq_nil_iff]
      intro f hfm
      simp only [decide_eq_true_eq]
      exact hf f hfm
    simp [h2]
  rw [hmk]
  rfl

/-- Witness for C4: the empty snapshot observed on the empty store. -/
theorem add_reference_to_save_empty_snapshot_witness :
    get_reference_to_save_by_path_id
        (add_reference_to_save AddSaveFaults.none DbState.empty "abc" 7 [] 5).2 7 =
      .ok (some [{ uuid := "abc", path_id := 7, time := 5, files_hash := [] }]) :=
  (add_reference_to_save_empty_snapshot DbState.empty "abc" 7 5
    (by intro s hsm; cases hsm) (by intro f hfm; cases hfm)).2.2.2

/-- C5: not-found is an absent value, not an error — `get_game_metadata_by_id`
returns `Ok None` whenever no stored row carries `Some target_id` (covering
both an id never inserted and rows whose stored id is null, which SQL
equality never matches), `get_reference_to_save_by_path_id` returns
`Ok None` when no `game_save` row has the path id, and
`get_game_metadata_by_id` can never return `Some` with a broken id: any
`Some` result carries exactly the queried id. -/
theorem get_not_found_absent (st : DbState) (target_id save_path_id : Int)
    (hm : ∀ r ∈ st.game_metadata, r.id ≠ some target_id)
    (hs : ∀ s ∈ st.game_save, s.path_id ≠ save_path_id) :
    get_game_metadata_by_id st target_id = .ok Option.none ∧
    get_reference_to_save_by_path_id st save_path_id = .ok Option.none ∧
    (∀ (st2 : DbState) (t : Int) (gm : GameMetadata),
      get_game_metadata_by_id st2 t = .ok (some gm) → gm.id = some t) := by
  refine ⟨?_, ?_, ?_⟩
  · unfold get_game_metadata_by_id
    have hfind : (st.game_metadata.find? (fun r => r.id = some target_id)) =
        Option.none := by
      rw [List.find?_eq_none]
      intro r hr
      simp only [decide_eq_true_eq]
      exact hm r hr
    rw [hfind]
  · unfold get_reference_to_save_by_path_id
    have hfilter : (st.game_save.filter (fun s => s.path_id = save_path_id)) = [] := by
      rw [List.filter_eq_nil_iff]
      intro s hsm
      simp only [decide_eq_true_eq]
      exact hs s hsm
    rw [hfilter]
    rfl
  · intro st2 t gm h
    unfold get_game_metadata_by_id at h
    cases hfind : st2.game_metadata.find? (fun r => r.id = some t) with
    | none => rw [hfind] at h; cases h
    | some meta =>
      have hp := List.find?_some hfind
      simp only [decide_eq_true_eq] at hp
      rw [hfind] at h
      simp only [hp, Except.ok.injEq, Option.some.injEq] at h
      rw [← h]

/-- Witness for C5: a store whose only metadata row has a null id yields
`Ok None` for any id query (never `Some` with a broken id), and an
unused path id yields `Ok None` for the save query. -/
theorem get_not_found_absent_witness :
    get_game_metadata_by_id exStateNullId 1 = .ok Option.none ∧
    get_reference_to_save_by_path_id exStateNullId 7 = .ok Option.none :=
  ⟨(get_not_found_absent exStateNullId 1 7 (by decide) (by intro s hsm; cases hsm)).1,
   (get_not_found_absent exStateNullId 1 7 (by decide) (by intro s hsm; cases hsm)).2.1⟩

/-- C6: multi-save grouping — when exactly two `game_save` rows match a
path id, `get_reference_to_save_by_path_id` returns two distinct
`SaveReference` entries, and each entry's `files_hash` holds exactly the
images of the `file_hash` rows whose `game_save_uuid` equals that save's
own uuid — never merged and never cross-contaminated. -/
theorem get_reference_multi_save_grouping (st : DbState) (path_id : Int)
    (s1 s2 : DbGameSave)
    (hfilter : st.game_save.filter (fun s => s.path_id = path_id) = [s1, s2])
    (huuid : s1.uuid ≠ s2.uuid) :
    get_reference_to_save_by_path_id st path_id =
      .ok (some [mkSaveReference st s1, mkSaveReference st s2]) ∧
    (mkSaveReference st s1).uuid = s1.uuid ∧
    (mkSaveReference st s2).uuid = s2.uuid ∧
    mkSaveReference st s1 ≠ mkSaveReference st s2 ∧
    (∀ fh, fh ∈ (mkSaveReference st s1).files_hash ↔
      ∃ f ∈ st.file_hash, f.game_save_uuid = s1.uuid ∧ fh = toFileHash f) ∧
    (∀ fh, fh ∈ (mkSaveReference st s2).files_hash ↔
      ∃ f ∈ st.file_hash, f.game_save_uuid = s2.uuid ∧ fh = toFileHash f) := by
  refine ⟨?_, rfl, rfl, ?_, ?_, ?_⟩
  · unfold get_reference_to_save_by_path_id
    rw [hfilter]
    rfl
  · intro heq
    exact huuid (congrArg SaveReference.uuid heq)
  · intro fh
    unfold mkSaveReference
    simp only [List.mem_map, List.mem_filter, decide_eq_true_eq]
    constructor
    · rintro ⟨f, ⟨hfm, hfu⟩, rfl⟩
      exact ⟨f, hfm, hfu, rfl⟩
    · rintro ⟨f, hfm, hfu, rfl⟩
      exact ⟨f, ⟨hfm, hfu⟩, rfl⟩
  · intro fh
    unfold mkSaveReference
    simp only [List.mem_map, List.mem_filter, decide_eq_true_eq]
    constructor
    · rintro ⟨f, ⟨hfm, hfu⟩, rfl⟩
      exact ⟨f, hfm, hfu, rfl⟩
    · rintro ⟨f, hfm, hfu, rfl⟩
      exact ⟨f, ⟨hfm, hfu⟩, rfl⟩

/-- Witness for C6: two saves for path 7, each with its own file-hash row,
retrieved as two distinct references. -/
theorem get_reference_multi_save_grouping_witness :
    get_reference_to_save_by_path_id exStateTwoSaves 7 =
      .ok (some [mkSaveReference exStateTwoSaves { uuid := "abc", path_id := 7, time := 5 },
                 mkSaveReference exStateTwoSaves { uuid := "def", path_id := 7, time := 9 }]) ∧
    mkSaveReference exStateTwoSaves { uuid := "abc", path_id := 7, time := 5 } ≠
      mkSaveReference exStateTwoSaves { uuid := "def", path_id := 7, time := 9 } :=
  ⟨(get_reference_multi_save_grouping exStateTwoSaves 7
      { uuid := "abc", path_id := 7, time := 5 }
      { uuid := "def", path_id := 7, time := 9 } (by rfl) (by decide)).1,
   (get_reference_multi_save_grouping exStateTwoSaves 7
      { uuid := "abc", path_id := 7, time := 5 }
      { uuid := "def", path_id := 7, time := 9 } (by rfl) (by decide)).2.2.2.1⟩

/-- C7: OS scoping — `get_paths_by_game_id_and_os` succeeds and a path
string is in the result exactly when some `game_path` row carries that path
together with the queried `game_metadata_id` and the queried
`operating_system`; in particular a path registered only under Windows is
never in the result of a Linux query (no cross-OS leakage). -/
theorem get_paths_by_game_id_and_os_scoping (st : DbState) (game_id : Int)
    (os : OS) :
    ∃ l : List String, get_paths_by_game_id_and_os st game_id os = .ok l ∧
      ∀ p : String, p ∈ l ↔ ∃ r ∈ st.game_path,
        r.game_metadata_id = game_id ∧ r.operating_system = os ∧ r.path = p := by
  refine ⟨_, rfl, fun p => ?_⟩
  simp only [List.mem_map, List.mem_filter, decide_eq_true_eq]
  constructor
  · rintro ⟨r, ⟨hm, hg, ho⟩, rfl⟩
    exact ⟨r, hm, hg, ho, rfl⟩
  · rintro ⟨r, hm, hg, ho, rfl⟩
    exact ⟨r, ⟨hm, hg, ho⟩, rfl⟩

/-- Counterexample to C9: `add_game_path` performs no referential check —
on the empty store, inserting a path for the never-created game id 999
succeeds and leaves a `game_path` row whose `game_metadata_id` corresponds
to no `GameMetadata` row (an orphan). -/
theorem add_game_path_orphan_counterexample :
    ∃ r ∈ (add_game_path DbState.empty 999
        { path := "/save/foo", operating_system := OS.linux }).2.game_path,
      r.game_metadata_id = 999 ∧
      ¬ ∃ m ∈ (add_game_path DbState.empty 999
          { path := "/save/foo", operating_system := OS.linux }).2.game_metadata,
        m.id = some r.game_metadata_id := by
  decide

/-- C9 (amended): `add_game_path` and `add_game_executable` insert exactly
one row carrying the caller-supplied `game_metadata_id` unchanged, perform
no referential check, and leave `game_metadata` untouched; the new row
references an existing `GameMetadata` row exactly when the caller supplied
an id that already exists. -/
theorem add_game_path_executable_insert_contract (st : DbState)
    (game_id : Int) (p : SavePathCreate) (e : ExecutableCreate) :
    ((add_game_path st game_id p).1 = .ok () ∧
     (add_game_path st game_id p).2.game_path = st.game_path ++
       [{ id := some (nextPathId st), path := p.path,
          operating_system := p.operating_system, game_metadata_id := game_id }] ∧
     (add_game_path st game_id p).2.game_metadata = st.game_metadata) ∧
    ((add_game_executable st game_id e).1 = .ok () ∧
     (add_game_executable st game_id e).2.game_executable = st.game_executable ++
       [{ id := some (nextExecutableId st), executable := e.executable,
          operating_system := e.operating_system, game_metadata_id := game_id }] ∧
     (add_game_executable st game_id e).2.game_metadata = st.game_metadata) ∧
    ((∃ m ∈ st.game_metadata, m.id = some game_id) →
      (∃ m ∈ (add_game_path st game_id p).2.game_metadata, m.id = some game_id) ∧
      (∃ m ∈ (add_game_executable st game_id e).2.game_metadata, m.id = some game_id)) := by
  exact ⟨⟨rfl, rfl, rfl⟩, ⟨rfl, rfl, rfl⟩, fun h => ⟨h, h⟩⟩

/-- Witness for the amended C9: with game id 1 registered, the inserted
path row references an existing metadata row. -/
theorem add_game_path_executable_insert_contract_witness :
    ∃ m ∈ (add_game_path
        { DbState.empty with game_metadata :=
            [{ id := some 1, steam_appid := Option.none, default_name := "Foo" }] }
        1 { path := "/save/foo", operating_system := OS.linux }).2.game_metadata,
      m.id = some 1 :=
  ((add_game_path_executable_insert_contract
      { DbState.empty with game_metadata :=
          [{ id := some 1, steam_appid := Option.none, default_name := "Foo" }] }
      1 { path := "/save/foo", operating_system := OS.linux }
      { executable := "foo.exe", operating_system := OS.windows }).2.2
    (by decide)).1

/-- The hydration loop panics (models Rust `unwrap`) as soon as any row in
its input carries a null id. -/
lemma hydrateGames_panicked (st : DbState) (rows : List DbGameMetadata)
    (h : ∃ r ∈ rows, r.id = Option.none) : hydrateGames st rows = .panicked := by
  induction rows with
  | nil =>
    rcases h with ⟨r, hr, _⟩
    cases hr
  | cons g rest ih =>
    rcases h with ⟨r, hr, hid⟩
    rcases List.mem_cons.1 hr with heq | hmem
    · subst heq
      simp only [hydrateGames, hid]
    · have hrest := ih ⟨r, hmem, hid⟩
      simp only [hydrateGames, hrest]
      cases hgid : g.id with
      | none => rfl
      | some i => rfl

/-- C10: if a stored `game_metadata` row has a null id (and, for the
by-name query, matches the filtered name), `get_game_metadata_by_name` and
`get_games_metadata` panic via `unwrap` instead of returning `Ok` or `Err`
— unlike `get_game_metadata_by_id`, which never surfaces a record with a
null id. -/
theorem null_id_unwrap_panics (st : DbState) (target_name : String)
    (h : ∃ r ∈ st.game_metadata, r.id = Option.none ∧
      r.default_name = target_name) :
    get_game_metadata_by_name st target_name = .panicked ∧
    get_games_metadata st = .panicked ∧
    (∀ (t : Int) (gm : GameMetadata),
      get_game_metadata_by_id st t = .ok (some gm) → gm.id ≠ Option.none) := by
  obtain ⟨r, hr, hid, hname⟩ := h
  refine ⟨?_, ?_, ?_⟩
  · unfold get_game_metadata_by_name
    exact hydrateGames_panicked st _
      ⟨r, List.mem_filter.2 ⟨hr, by simp [hname]⟩, hid⟩
  · unfold get_games_metadata
    exact hydrateGames_panicked st _ ⟨r, hr, hid⟩
  · intro t gm hget hnone
    unfold get_game_metadata_by_id at hget
    cases hfind : st.game_metadata.find? (fun r2 => r2.id = some t) with
    | none => rw [hfind] at hget; cases hget
    | some meta =>
      have hp := List.find?_some hfind
      simp only [decide_eq_true_eq] at hp
      rw [hfind] at hget
      simp only [hp, Except.ok.injEq, Option.some.injEq] at hget
      rw [← hget] at hnone
      exact Option.noConfusion hnone

/-- Witness for C10: a store whose only metadata row has a null id makes
both scanning queries panic. -/
theorem null_id_unwrap_panics_witness :
    get_game_metadata_by_name exStateNullId "Foo" = .panicked ∧
    get_games_metadata exStateNullId = .panicked :=
  ⟨(null_id_unwrap_panics exStateNullId "Foo" (by decide)).1,
   (null_id_unwrap_panics exStateNullId "Foo" (by decide)).2.1⟩
